import Mathlib

/-!
# Verification of the Procare photo downloader pipeline

Shallow embedding of `downloader.py`: the filename normalizer, the
`/main/<name>` URL extraction with its `hash(url)` fallback, the month-window
range partitioner, the paginated photo-index fetcher, and the download
dispatcher with its skip-on-exists and progress-counter behaviour.

Network and filesystem effects are made explicit: the HTTP layer is an
oracle function supplied to each operation, the filesystem is an association
list from paths to file contents, and Python's per-process salted string
`hash` is an explicit function parameter (two processes correspond to two
different hash functions).
-/

/-! ## Naive datetimes

Python `datetime` values as used by the script: year, month, day, hour,
minute (seconds and microseconds are always zeroed where the script compares
or formats them, so they are omitted).  Comparison is chronological, i.e.
lexicographic on the fields. -/

structure PyDatetime where
  year : Nat
  month : Nat
  day : Nat
  hour : Nat
  minute : Nat
deriving DecidableEq, Repr

/-- Gregorian leap-year rule, as in Python's `calendar`/`dateutil`. -/
def isLeap (y : Nat) : Bool :=
  decide ((y % 4 = 0 ∧ y % 100 ≠ 0) ∨ y % 400 = 0)

/-- Number of days in a month, used by `dateutil.relativedelta` to clamp the
day when stepping across months. -/
def daysInMonth (y m : Nat) : Nat :=
  if m = 2 then (if isLeap y then 29 else 28)
  else if m = 4 ∨ m = 6 ∨ m = 9 ∨ m = 11 then 30
  else 31

/-- Chronological strict order on naive datetimes (Python `datetime` `<`). -/
def pyLt (a b : PyDatetime) : Bool :=
  decide (a.year < b.year ∨ (a.year = b.year ∧
    (a.month < b.month ∨ (a.month = b.month ∧
      (a.day < b.day ∨ (a.day = b.day ∧
        (a.hour < b.hour ∨ (a.hour = b.hour ∧ a.minute < b.minute))))))))

/-- Python `max(a, b)` on datetimes: returns `b` exactly when `a < b`. -/
def pyMax (a b : PyDatetime) : PyDatetime :=
  if pyLt a b then b else a

/-- One step of `dt - relativedelta(months=1)`: the month index decreases by
one (borrowing from the year) and the day is clamped into the target month;
the time of day is preserved. -/
def subMonth (d : PyDatetime) : PyDatetime :=
  if d.month = 1 then
    ⟨d.year - 1, 12, min d.day (daysInMonth (d.year - 1) 12), d.hour, d.minute⟩
  else
    ⟨d.year, d.month - 1, min d.day (daysInMonth d.year (d.month - 1)), d.hour, d.minute⟩

/-- Calendar successor day, modelling `dt + timedelta(days=1)` (the time of
day is carried over unchanged). -/
def addOneDay (d : PyDatetime) : PyDatetime :=
  if d.day < daysInMonth d.year d.month then
    ⟨d.year, d.month, d.day + 1, d.hour, d.minute⟩
  else if d.month < 12 then
    ⟨d.year, d.month + 1, 1, d.hour, d.minute⟩
  else
    ⟨d.year + 1, 1, 1, d.hour, d.minute⟩

/-- Lines 146-147 of `downloader.py`:
`datetime.now() + timedelta(days=1)` followed by
`.replace(hour=0, minute=0, second=0, microsecond=0)`. -/
def nextMidnight (now : PyDatetime) : PyDatetime :=
  let e := addOneDay now
  ⟨e.year, e.month, e.day, 0, 0⟩

/-! ## Range Partitioner

Lines 165-177 of `downloader.py`: walk backward from `datetime_to` one
calendar month at a time, clamping the final window's lower edge to
`start_datetime`, collecting `(current_from, current_to)` pairs.  The source
`while` loop is embedded with a fuel bound on its iteration count; every
iteration either decreases the month index `12 * year + month` of
`current_to` by exactly one or moves it onto the start boundary (after which
the guard fails), so the month-index difference plus two bounds the number
of loop entries and the fuel is never exhausted. -/

def partitionAux (start : PyDatetime) : Nat → PyDatetime → List (PyDatetime × PyDatetime)
  | 0, _ => []
  | fuel + 1, current_to =>
    if pyLt start current_to then
      let current_from := pyMax start (subMonth current_to)
      (current_from, current_to) :: partitionAux start fuel current_from
    else []

/-- The window list produced by `run_download` before any fetching: upper
edge `nextMidnight now`, stepping backward month by month until the start
boundary is reached. -/
def partitionWindows (start now : PyDatetime) : List (PyDatetime × PyDatetime) :=
  let dto := nextMidnight now
  partitionAux start ((12 * dto.year + dto.month) - (12 * start.year + start.month) + 2) dto

/-! ## Filename Normalizer

Lines 18-23 of `downloader.py`.  Python's `str.rpartition('_')` splits at
the last occurrence of `'_'` into `(head, '_', tail)` and yields
`('', '', filename)` when there is no underscore; `check_filename_format`
then returns `f'{head}.{tail}'` whenever the name has no period. -/

/-- Split a character list at its last underscore: `some (head, tail)` with
the separator removed, or `none` when no underscore occurs (the two shapes of
Python `rpartition`). -/
def rpartAux : List Char → Option (List Char × List Char)
  | [] => none
  | c :: cs =>
    match rpartAux cs with
    | some (b, a) => some (c :: b, a)
    | none => if c = '_' then some ([], cs) else none

/-- Character-level body of `check_filename_format`: if the name contains no
period, rewrite the final underscore-delimited segment as an extension;
otherwise return the name unchanged. -/
def checkFilenameList (l : List Char) : List Char :=
  if '.' ∈ l then l
  else
    match rpartAux l with
    | some (b, a) => b ++ '.' :: a
    | none => '.' :: l

/-- Lines 18-23 of `downloader.py`, on Python strings. -/
def check_filename_format (filename : String) : String :=
  String.mk (checkFilenameList filename.toList)

/-- The final underscore-delimited segment of a name (the whole name when it
has no underscore), stated independently of `rpartAux`. -/
def lastUnderscoreSegment (l : List Char) : List Char :=
  (l.reverse.takeWhile (fun c => c != '_')).reverse

theorem toList_mk (l : List Char) : (String.mk l).toList = l := rfl

theorem rpart_none_of_not_mem : ∀ l : List Char, '_' ∉ l → rpartAux l = none
  | [], _ => rfl
  | c :: cs, h => by
    have hc : ¬ c = '_' := fun e => h (by simp [e])
    have hcs : rpartAux cs = none :=
      rpart_none_of_not_mem cs (fun m => h (List.mem_cons_of_mem c m))
    simp [rpartAux, hcs, hc]

theorem rpart_not_mem_of_none : ∀ l : List Char, rpartAux l = none → '_' ∉ l
  | [], _ => by simp
  | c :: cs, h => by
    cases hso : rpartAux cs with
    | some p =>
      obtain ⟨b, a⟩ := p
      exfalso
      simp [rpartAux, hso] at h
    | none =>
      have hc : c ≠ '_' := by
        intro e
        simp [rpartAux, hso, e] at h
      have ih := rpart_not_mem_of_none cs hso
      intro hmem
      rcases List.mem_cons.mp hmem with e | m
      · exact hc e.symm
      · exact ih m

theorem rpartAux_some_spec : ∀ l b a, rpartAux l = some (b, a) →
    l = b ++ '_' :: a ∧ '_' ∉ a
  | [], b, a, h => by simp [rpartAux] at h
  | c :: cs, b, a, h => by
    cases hso : rpartAux cs with
    | some p =>
      obtain ⟨b2, a2⟩ := p
      have ih := rpartAux_some_spec cs b2 a2 hso
      have hba : c :: b2 = b ∧ a2 = a := by
        simp only [rpartAux, hso] at h
        exact ⟨congrArg Prod.fst (Option.some.inj h), congrArg Prod.snd (Option.some.inj h)⟩
      obtain ⟨hb, ha⟩ := hba
      subst hb
      subst ha
      refine ⟨?_, ih.2⟩
      rw [ih.1]
      simp
    | none =>
      by_cases hc : c = '_'
      · have hcs := rpart_not_mem_of_none cs hso
        simp only [rpartAux, hso, hc, if_pos] at h
        have hb : ([] : List Char) = b := congrArg Prod.fst (Option.some.inj h)
        have ha : cs = a := congrArg Prod.snd (Option.some.inj h)
        subst hb
        subst ha
        exact ⟨by simp [hc], hcs⟩
      · exfalso
        simp [rpartAux, hso, hc] at h

theorem takeWhile_all (p : Char → Bool) :
    ∀ l : List Char, (∀ x ∈ l, p x = true) → l.takeWhile p = l
  | [], _ => rfl
  | x :: xs, h => by
    have hx : p x = true := h x (by simp)
    simp [List.takeWhile_cons, hx, takeWhile_all p xs (fun z hz => h z (by simp [hz]))]

theorem takeWhile_all_append (p : Char → Bool) (xs : List Char) (y : Char)
    (ys : List Char) (hxs : ∀ x ∈ xs, p x = true) (hy : p y = false) :
    (xs ++ y :: ys).takeWhile p = xs := by
  induction xs with
  | nil => simp [List.takeWhile_cons, hy]
  | cons x xs ih =>
    have hx : p x = true := hxs x (by simp)
    simp [List.takeWhile_cons, hx]
    exact ih (fun z hz => hxs z (by simp [hz]))

/-- Shape of a normalized no-period name: a single inserted period whose
suffix is exactly the final underscore-delimited segment of the input, and
no period on either side of it. -/
theorem checkFilenameList_shape (l : List Char) (h : '.' ∉ l) :
    ∃ b, checkFilenameList l = b ++ '.' :: lastUnderscoreSegment l ∧
      '.' ∉ b ∧ '.' ∉ lastUnderscoreSegment l := by
  cases hso : rpartAux l with
  | some p =>
    obtain ⟨b, a⟩ := p
    obtain ⟨hsplit, hund⟩ := rpartAux_some_spec l b a hso
    have hseg : lastUnderscoreSegment l = a := by
      rw [lastUnderscoreSegment, hsplit]
      rw [show (b ++ '_' :: a).reverse = a.reverse ++ '_' :: b.reverse by simp]
      rw [takeWhile_all_append _ _ _ _ ?_ (by simp)]
      · simp
      · intro x hx
        have hne : x ≠ '_' := by
          intro e
          exact hund (by rw [← e]; exact List.mem_reverse.mp hx)
        simp [hne]
    have hbmem : '.' ∉ b := fun m => h (by rw [hsplit]; simp [m])
    have hamem : '.' ∉ a := fun m => h (by rw [hsplit]; simp [m])
    refine ⟨b, ?_, hbmem, by rw [hseg]; exact hamem⟩
    rw [hseg]
    simp [checkFilenameList, h, hso]
  | none =>
    have hund := rpart_not_mem_of_none l hso
    have hseg : lastUnderscoreSegment l = l := by
      rw [lastUnderscoreSegment]
      rw [takeWhile_all _ _ ?_]
      · simp
      · intro x hx
        have hne : x ≠ '_' := by
          intro e
          exact hund (by rw [← e]; exact List.mem_reverse.mp hx)
        simp [hne]
    refine ⟨[], ?_, by simp, by rw [hseg]; exact h⟩
    rw [hseg]
    simp [checkFilenameList, h, hso]

theorem checkFilenameList_idem (l : List Char) :
    checkFilenameList (checkFilenameList l) = checkFilenameList l := by
  by_cases h : '.' ∈ l
  · simp [checkFilenameList, h]
  · obtain ⟨b, hshape, _, _⟩ := checkFilenameList_shape l h
    have hmem : '.' ∈ checkFilenameList l := by
      rw [hshape]
      simp
    rw [checkFilenameList, if_pos hmem]

/-! ## Claims C6 and C10: Filename Normalizer properties -/

/-- Claim C6: `check_filename_format` is idempotent on every input, and on
every input without a period a single application yields a name with exactly
one period, of the form `prefix.extension` with the extension being the final
underscore-delimited segment of the input. -/
theorem check_filename_format_idempotent_single_period :
    (∀ s : String, check_filename_format (check_filename_format s) = check_filename_format s) ∧
    (∀ s : String, '.' ∉ s.toList →
      (check_filename_format s).toList.count '.' = 1 ∧
      ∃ b, (check_filename_format s).toList = b ++ '.' :: lastUnderscoreSegment s.toList) := by
  constructor
  · intro s
    show String.mk (checkFilenameList (checkFilenameList s.toList)) =
      String.mk (checkFilenameList s.toList)
    rw [checkFilenameList_idem]
  · intro s h
    obtain ⟨b, hshape, hb, ha⟩ := checkFilenameList_shape s.toList h
    have htl : (check_filename_format s).toList = checkFilenameList s.toList := rfl
    constructor
    · rw [htl, hshape, List.count_append, List.count_cons]
      rw [List.count_eq_zero.mpr hb, List.count_eq_zero.mpr ha]
      simp
    · exact ⟨b, by rw [htl]; exact hshape⟩

/-- Instance of claim C6 at the spec's own example `image123_jpg`. -/
theorem check_filename_format_c6_witness :
    check_filename_format (check_filename_format "image123_jpg") =
      check_filename_format "image123_jpg" ∧
    (check_filename_format "image123_jpg").toList.count '.' = 1 :=
  ⟨check_filename_format_idempotent_single_period.1 "image123_jpg",
   (check_filename_format_idempotent_single_period.2 "image123_jpg" (by decide)).1⟩

/-- Claim C10: on a name with no period and no underscore, `rpartition`
returns an empty head, so the normalizer prepends a bare period. -/
theorem check_filename_format_no_underscore (s : String)
    (h1 : '.' ∉ s.toList) (h2 : '_' ∉ s.toList) :
    check_filename_format s = String.mk ('.' :: s.toList) := by
  have hnone := rpart_none_of_not_mem s.toList h2
  show String.mk (checkFilenameList s.toList) = String.mk ('.' :: s.toList)
  rw [checkFilenameList, if_neg h1, hnone]

/-- Instance of claim C10: `abc` becomes `.abc`. -/
theorem check_filename_format_no_underscore_witness :
    check_filename_format "abc" = String.mk ('.' :: "abc".toList) :=
  check_filename_format_no_underscore "abc" (by decide) (by decide)

/-! ## Claim C2: the window scenario for start 2024-01-01, current date 2024-03-15 -/

/-- Claim C2, as stated, is false: the Range Partitioner steps back with
`relativedelta(months=1)` from the exclusive upper edge `2024-03-16`, so the
interior window boundaries fall on the 16th, not the 15th.  At current date
2024-03-15 10:30 the produced windows differ from the spec's
`[2024-02-15..2024-03-16], [2024-01-15..2024-02-15], [2024-01-01..2024-01-15]`. -/
theorem partitionWindows_spec_example_false :
    partitionWindows ⟨2024, 1, 1, 0, 0⟩ ⟨2024, 3, 15, 10, 30⟩ ≠
      [(⟨2024, 2, 15, 0, 0⟩, ⟨2024, 3, 16, 0, 0⟩),
       (⟨2024, 1, 15, 0, 0⟩, ⟨2024, 2, 15, 0, 0⟩),
       (⟨2024, 1, 1, 0, 0⟩, ⟨2024, 1, 15, 0, 0⟩)] := by
  decide

/-- Claim C2 amended: for start date 2024-01-01 and any current time of day
on 2024-03-15, the Range Partitioner produces exactly the three windows
`[2024-02-16..2024-03-16]`, `[2024-01-16..2024-02-16]`,
`[2024-01-01..2024-01-16]`, newest first, the last clamped to the start
boundary. -/
theorem partitionWindows_2024_scenario (h m : Nat) :
    partitionWindows ⟨2024, 1, 1, 0, 0⟩ ⟨2024, 3, 15, h, m⟩ =
      [(⟨2024, 2, 16, 0, 0⟩, ⟨2024, 3, 16, 0, 0⟩),
       (⟨2024, 1, 16, 0, 0⟩, ⟨2024, 2, 16, 0, 0⟩),
       (⟨2024, 1, 1, 0, 0⟩, ⟨2024, 1, 16, 0, 0⟩)] := by
  unfold partitionWindows
  rw [show nextMidnight ⟨2024, 3, 15, h, m⟩ = ⟨2024, 3, 16, 0, 0⟩ from rfl]
  decide

/-- Concrete instance of `partitionWindows_2024_scenario` at 00:00. -/
theorem partitionWindows_2024_scenario_witness :
    partitionWindows ⟨2024, 1, 1, 0, 0⟩ ⟨2024, 3, 15, 0, 0⟩ =
      [(⟨2024, 2, 16, 0, 0⟩, ⟨2024, 3, 16, 0, 0⟩),
       (⟨2024, 1, 16, 0, 0⟩, ⟨2024, 2, 16, 0, 0⟩),
       (⟨2024, 1, 1, 0, 0⟩, ⟨2024, 1, 16, 0, 0⟩)] :=
  partitionWindows_2024_scenario 0 0

/-! ## Datetime formatting for the photo-index request

Lines 102-106 of `downloader.py`: the query parameters carry `page` and the
two window bounds rendered with `strftime("%Y-%m-%d %I:%M")`.  CPython's
`%Y`/`%m`/`%d`/`%M` are zero-padded decimal fields and `%I` is the zero-padded
12-hour clock hour (`0 -> 12`, `13 -> 01`), with no AM/PM marker in the
format string. -/

/-- Zero-padding to two digits, as CPython strftime does for `%m`, `%d`,
`%I`, `%M`. -/
def pad2 (n : Nat) : String :=
  if n < 10 then "0" ++ toString n else toString n

/-- Zero-padding to four digits, as CPython strftime does for `%Y`. -/
def pad4 (n : Nat) : String :=
  if n < 10 then "000" ++ toString n
  else if n < 100 then "00" ++ toString n
  else if n < 1000 then "0" ++ toString n
  else toString n

/-- CPython's `%I` field value: `((hour + 11) % 12) + 1`. -/
def strftimeHour12 (h : Nat) : Nat := (h + 11) % 12 + 1

/-- The string produced by `dt.strftime("%Y-%m-%d %I:%M")` on line 104/105. -/
def formatDatetime (dt : PyDatetime) : String :=
  pad4 dt.year ++ "-" ++ pad2 dt.month ++ "-" ++ pad2 dt.day ++ " " ++
    pad2 (strftimeHour12 dt.hour) ++ ":" ++ pad2 dt.minute

/-- Modelled from the spec: the same date rendered with a 24-hour time
(`YYYY-MM-DD HH:MM`, hour `00`-`23`), the first formatting option the spec
allows. -/
def formatDatetime24 (dt : PyDatetime) : String :=
  pad4 dt.year ++ "-" ++ pad2 dt.month ++ "-" ++ pad2 dt.day ++ " " ++
    pad2 dt.hour ++ ":" ++ pad2 dt.minute

/-- Modelled from the spec: the 12-hour clock hour (`1`-`12`) written
without any AM/PM marker. -/
def specHour12 (h : Nat) : Nat :=
  if h % 12 = 0 then 12 else h % 12

/-- Modelled from the spec's words for the amended claim: `YYYY-MM-DD HH:MM`
where `HH` is the 12-hour clock hour and no AM/PM marker is attached. -/
def formatDatetime12 (dt : PyDatetime) : String :=
  pad4 dt.year ++ "-" ++ pad2 dt.month ++ "-" ++ pad2 dt.day ++ " " ++
    pad2 (specHour12 dt.hour) ++ ":" ++ pad2 dt.minute

/-- Substring test on character lists (first list occurs contiguously in the
second). -/
def leadsWith : List Char → List Char → Bool
  | [], _ => true
  | _ :: _, [] => false
  | p :: ps, c :: cs => p == c && leadsWith ps cs

def containsSubstring (pat : List Char) : List Char → Bool
  | [] => pat.isEmpty
  | c :: cs => leadsWith pat (c :: cs) || containsSubstring pat cs

/-- A string carries an AM/PM marker (either case) somewhere. -/
def hasAmPmMarker (s : String) : Bool :=
  containsSubstring "AM".toList s.toList || containsSubstring "PM".toList s.toList ||
    containsSubstring "am".toList s.toList || containsSubstring "pm".toList s.toList

/-- The query-parameter record built on lines 102-106 of `downloader.py` for
one page request. -/
structure PageParams where
  page : Nat
  datetime_from : String
  datetime_to : String
deriving DecidableEq, Repr

/-- Lines 102-106 of `downloader.py`. -/
def pageParams (page : Nat) (datetime_from datetime_to : PyDatetime) : PageParams :=
  ⟨page, formatDatetime datetime_from, formatDatetime datetime_to⟩

/-! ## Claim C4: the wire format of the window bounds -/

/-- Claim C4, as stated, is false: at the midnight bound `2024-03-16 00:00`
(the upper edge the Range Partitioner actually produces in the C2 scenario)
the request carries `2024-03-16 12:00`, which is neither the 24-hour
rendering (`00:00`) nor a 12-hour rendering with an AM/PM marker. -/
theorem pageParams_format_spec_false :
    (pageParams 1 ⟨2024, 3, 16, 0, 0⟩ ⟨2024, 3, 16, 0, 0⟩).datetime_from ≠
      formatDatetime24 ⟨2024, 3, 16, 0, 0⟩ ∧
    hasAmPmMarker (pageParams 1 ⟨2024, 3, 16, 0, 0⟩ ⟨2024, 3, 16, 0, 0⟩).datetime_from
      = false := by
  decide

/-- Claim C4 amended: every photo-index request carries both window bounds as
`YYYY-MM-DD HH:MM` with `HH` the 12-hour clock hour and no AM/PM marker,
applied consistently to both bounds. -/
theorem pageParams_format_12hour_no_marker (page : Nat) (dfrom dto : PyDatetime) :
    (pageParams page dfrom dto).datetime_from = formatDatetime12 dfrom ∧
    (pageParams page dfrom dto).datetime_to = formatDatetime12 dto := by
  have hh : ∀ h : Nat, strftimeHour12 h = specHour12 h := by
    intro h
    rw [strftimeHour12, specHour12]
    split_ifs with h0 <;> omega
  constructor <;> simp [pageParams, formatDatetime, formatDatetime12, hh]

/-- Instance of the amended claim C4 at a concrete page and bounds. -/
theorem pageParams_format_12hour_no_marker_witness :
    (pageParams 2 ⟨2024, 2, 16, 0, 0⟩ ⟨2024, 3, 16, 0, 0⟩).datetime_from =
      formatDatetime12 ⟨2024, 2, 16, 0, 0⟩ ∧
    (pageParams 2 ⟨2024, 2, 16, 0, 0⟩ ⟨2024, 3, 16, 0, 0⟩).datetime_to =
      formatDatetime12 ⟨2024, 3, 16, 0, 0⟩ :=
  pageParams_format_12hour_no_marker 2 ⟨2024, 2, 16, 0, 0⟩ ⟨2024, 3, 16, 0, 0⟩

/-! ## Local file path of a descriptor

Lines 42-45 of `downloader.py`: `re.search(r'/main/([^?]+)', url)` takes, at
the leftmost position where `/main/` is followed by at least one non-`?`
character, the maximal run of non-`?` characters after it; when the search
fails the filename falls back to `f"photo_{hash(url)}.jpg"`.  Python's
string `hash` is salted per process (`PYTHONHASHSEED`), so it is modelled as
an explicit function parameter: two runs of the program correspond to two
hash functions. -/

/-- Leftmost match of the regex `/main/([^?]+)`, returning capture group 1. -/
def extractMain : List Char → Option (List Char)
  | [] => none
  | c :: cs =>
    if leadsWith "/main/".toList (c :: cs) ∧
        ((c :: cs).drop 6).takeWhile (fun x => x != '?') ≠ [] then
      some (((c :: cs).drop 6).takeWhile (fun x => x != '?'))
    else extractMain cs

/-- The normalized filename computed for a descriptor's `main_url` on lines
42-44 of `downloader.py`. -/
def computeFilename (hashFn : String → Int) (url : String) : String :=
  check_filename_format
    (match extractMain url.toList with
      | some name => String.mk name
      | none => "photo_" ++ toString (hashFn url) ++ ".jpg")

/-- Line 45 of `downloader.py`: `os.path.join(save_dir, filename)` for a
directory without a trailing separator and a relative filename. -/
def filePath (hashFn : String → Int) (save_dir url : String) : String :=
  save_dir ++ "/" ++ computeFilename hashFn url

/-! ## Claim C5: determinism of the descriptor-to-path mapping -/

/-- Claim C5, as stated, is false: on a URL where the `/main/<name>`
extraction fails, the path depends on the process's string-hash function, so
two runs with different hash seeds (here: two different hash functions) can
map the same `remote_url` to different paths. -/
theorem filePath_hash_fallback_not_deterministic :
    filePath (fun _ => 0) "pics" "https://cdn.example.com/photos/12402.jpg?x" ≠
      filePath (fun _ => 1) "pics" "https://cdn.example.com/photos/12402.jpg?x" := by
  decide

/-- Claim C5 amended: whenever the `/main/<name>` extraction succeeds, the
local path is a deterministic pure function of `remote_url` — it does not
depend on the process hash function; only the `hash(url)` fallback is
run-dependent. -/
theorem filePath_deterministic_when_extract_succeeds
    (h1 h2 : String → Int) (dir url : String)
    (h : (extractMain url.toList).isSome = true) :
    filePath h1 dir url = filePath h2 dir url := by
  obtain ⟨name, hname⟩ := Option.isSome_iff_exists.mp h
  have hname2 : extractMain url.data = some name := hname
  simp [filePath, computeFilename, hname2]

/-- Instance of the amended claim C5 at the source's own example URL shape,
under two distinct hash functions. -/
theorem filePath_deterministic_witness :
    filePath (fun _ => 0) "pics" "https://x.com/main/photo12402.jpg?1209381038" =
      filePath (fun _ => 1) "pics" "https://x.com/main/photo12402.jpg?1209381038" :=
  filePath_deterministic_when_extract_succeeds (fun _ => 0) (fun _ => 1) "pics"
    "https://x.com/main/photo12402.jpg?1209381038" (by decide)

/-! ## Paginated Fetcher

Lines 89-133 of `downloader.py`.  The HTTP layer is abstracted as an oracle
from the request's query parameters to either a parsed JSON page (`ok`), an
HTTP status failure raised by `raise_for_status` (`httpError`), or any other
exception (`otherError`); both failure kinds `break` the loop.  Each loop
iteration issues exactly one page request, so the returned counter is the
number of requests issued.  The `while True` loop is embedded with explicit
fuel, returning `none` if the fuel is exhausted before a `break` or `return`;
the termination theorem for claim C7 exhibits a sufficient fuel. -/

/-- One element of the `photos` JSON array: all three consumed keys may be
absent. -/
structure PhotoJson where
  main_url : Option String
  created_at : Option String
  caption : Option String
deriving DecidableEq, Repr

/-- A photo descriptor as built on lines 114-117: `main_url` is present
(entries without it are dropped), the other fields are optional. -/
structure PhotoObj where
  main_url : String
  created_date : Option String
  caption : Option String
deriving DecidableEq, Repr

/-- The JSON fields of one page response consumed by the fetcher; `total`
and `per_page` fall back to `0` and `50` via `dict.get` defaults. -/
structure PageResponse where
  photos : List PhotoJson
  total : Option Int
  per_page : Option Int
deriving DecidableEq, Repr

/-- Outcome of one page request. -/
inductive PageResult where
  | ok : PageResponse → PageResult
  | httpError : Nat → PageResult
  | otherError : PageResult
deriving DecidableEq, Repr

/-- Lines 114-117: keep exactly the entries carrying a `main_url`. -/
def extractObjs (r : PageResponse) : List PhotoObj :=
  r.photos.filterMap (fun ph => ph.main_url.map (fun u => ⟨u, ph.created_at, ph.caption⟩))

/-- The page loop of `fetch_photos_for_date_range`, with `acc` the
accumulated `all_photos` list and `cnt` the number of requests issued so
far. -/
def fetchAux (server : PageParams → PageResult) (dfrom dto : PyDatetime) :
    Nat → Nat → List PhotoObj → Nat → Option (List PhotoObj × Nat)
  | 0, _, _, _ => none
  | fuel + 1, page, acc, cnt =>
    match server (pageParams page dfrom dto) with
    | PageResult.ok r =>
      let acc2 := acc ++ extractObjs r
      if r.total.getD 0 ≤ (page : Int) * r.per_page.getD 50 then some (acc2, cnt + 1)
      else fetchAux server dfrom dto fuel (page + 1) acc2 (cnt + 1)
    | PageResult.httpError _ => some (acc, cnt + 1)
    | PageResult.otherError => some (acc, cnt + 1)

/-- Lines 89-133 of `downloader.py`: start at page 1 with an empty
accumulator; the result carries the returned `all_photos` list and the
number of page requests issued. -/
def fetch_photos_for_date_range (server : PageParams → PageResult)
    (dfrom dto : PyDatetime) (fuel : Nat) : Option (List PhotoObj × Nat) :=
  fetchAux server dfrom dto fuel 1 [] 0

/-- The pages `[s, s+1, ..., s+n-1]`. -/
def pageList : Nat → Nat → List Nat
  | _, 0 => []
  | s, n + 1 => s :: pageList (s + 1) n

/-- The descriptors the fetcher extracts from page `k` when that page
answers `ok`. -/
def pageObjs (server : PageParams → PageResult) (dfrom dto : PyDatetime) (k : Nat) :
    List PhotoObj :=
  match server (pageParams k dfrom dto) with
  | PageResult.ok r => extractObjs r
  | _ => []

/-- Concatenation of the extracted descriptors over a list of pages. -/
def collectPages (server : PageParams → PageResult) (dfrom dto : PyDatetime) :
    List Nat → List PhotoObj
  | [] => []
  | k :: ks => pageObjs server dfrom dto k ++ collectPages server dfrom dto ks

/-! ## Claim C3: total 125, per_page 50 means exactly 3 page requests -/

/-- Claim C3: when every page response reports `total = 125` and
`per_page = 50`, the fetcher issues exactly 3 page requests and stops, for
every sufficient fuel. -/
theorem fetcher_three_pages (server : PageParams → PageResult) (dfrom dto : PyDatetime)
    (h : ∀ k : Nat, ∃ ph, server (pageParams k dfrom dto) =
      PageResult.ok ⟨ph, some 125, some 50⟩) :
    ∀ fuel, 3 ≤ fuel →
      Option.map Prod.snd (fetch_photos_for_date_range server dfrom dto fuel) = some 3 := by
  intro fuel hf
  obtain ⟨f, rfl⟩ : ∃ f, fuel = f + 3 := ⟨fuel - 3, by omega⟩
  obtain ⟨p1, h1⟩ := h 1
  obtain ⟨p2, h2⟩ := h 2
  obtain ⟨p3, h3⟩ := h 3
  show Option.map Prod.snd (fetchAux server dfrom dto (f + 3) 1 [] 0) = some 3
  norm_num [fetchAux, h1, h2, h3]

/-- Server used to instantiate claim C3. -/
def exampleServerC3 : PageParams → PageResult :=
  fun _ => PageResult.ok ⟨[], some 125, some 50⟩

/-- Instance of claim C3 at a constant server and fuel 3. -/
theorem fetcher_three_pages_witness :
    Option.map Prod.snd
      (fetch_photos_for_date_range exampleServerC3 ⟨2024, 1, 1, 0, 0⟩ ⟨2024, 1, 16, 0, 0⟩ 3) =
      some 3 :=
  fetcher_three_pages exampleServerC3 ⟨2024, 1, 1, 0, 0⟩ ⟨2024, 1, 16, 0, 0⟩
    (fun _ => ⟨[], rfl⟩) 3 (le_refl 3)

/-! ## Claim C7: termination of the page loop -/

/-- Fuel sufficiency for the page loop: once `t` is at most
`page * p + fuel * p`, the loop reaches its guard or a `break` before the
fuel runs out. -/
theorem fetchAux_some_of_bound (server : PageParams → PageResult) (dfrom dto : PyDatetime)
    (p t : Int) (_hp : 0 < p)
    (hfix : ∀ ps r, server ps = PageResult.ok r →
      r.per_page.getD 50 = p ∧ r.total.getD 0 = t) :
    ∀ (fuel page : Nat) (acc : List PhotoObj) (cnt : Nat),
      t ≤ (page : Int) * p + (fuel : Int) * p →
      ∃ res, fetchAux server dfrom dto (fuel + 1) page acc cnt = some res := by
  intro fuel
  induction fuel with
  | zero =>
    intro page acc cnt hb
    cases hs : server (pageParams page dfrom dto) with
    | ok r =>
      obtain ⟨hpp, htot⟩ := hfix _ _ hs
      have hguard : r.total.getD 0 ≤ (page : Int) * r.per_page.getD 50 := by
        rw [htot, hpp]
        simpa using hb
      exact ⟨(acc ++ extractObjs r, cnt + 1), by simp [fetchAux, hs, hguard]⟩
    | httpError code => exact ⟨(acc, cnt + 1), by simp [fetchAux, hs]⟩
    | otherError => exact ⟨(acc, cnt + 1), by simp [fetchAux, hs]⟩
  | succ f ih =>
    intro page acc cnt hb
    cases hs : server (pageParams page dfrom dto) with
    | ok r =>
      obtain ⟨hpp, htot⟩ := hfix _ _ hs
      by_cases hguard : r.total.getD 0 ≤ (page : Int) * r.per_page.getD 50
      · exact ⟨(acc ++ extractObjs r, cnt + 1), by simp [fetchAux, hs, hguard]⟩
      · have step : fetchAux server dfrom dto (f + 1 + 1) page acc cnt =
            fetchAux server dfrom dto (f + 1) (page + 1) (acc ++ extractObjs r) (cnt + 1) := by
          simp [fetchAux, hs, hguard]
        rw [step]
        apply ih
        push_cast
        push_cast at hb
        linarith
    | httpError code => exact ⟨(acc, cnt + 1), by simp [fetchAux, hs]⟩
    | otherError => exact ⟨(acc, cnt + 1), by simp [fetchAux, hs]⟩

/-- Claim C7: with a fixed positive `per_page = p` and a fixed finite
non-negative `total = t` reported by every successful page, the page loop
terminates — fuel `t.toNat + 2` is never exhausted — and a server reporting
`total = 0` ends the loop after the single page-1 request. -/
theorem fetch_pagination_terminates (server : PageParams → PageResult)
    (dfrom dto : PyDatetime) (p t : Int) (hp : 0 < p) (ht : 0 ≤ t)
    (hfix : ∀ ps r, server ps = PageResult.ok r →
      r.per_page.getD 50 = p ∧ r.total.getD 0 = t) :
    (∃ res, fetch_photos_for_date_range server dfrom dto (t.toNat + 2) = some res) ∧
    (t = 0 → ∀ fuel, 1 ≤ fuel →
      ∃ l, fetch_photos_for_date_range server dfrom dto fuel = some (l, 1)) := by
  constructor
  · obtain ⟨res, hres⟩ :=
      fetchAux_some_of_bound server dfrom dto p t hp hfix (t.toNat + 1) 1 [] 0 (by
        have h1 : t + 1 ≤ (t + 1) * p := le_mul_of_one_le_right (by linarith) (by linarith)
        push_cast [Int.toNat_of_nonneg ht]
        linarith)
    exact ⟨res, hres⟩
  · intro ht0 fuel hfuel
    obtain ⟨f, rfl⟩ : ∃ f, fuel = f + 1 := ⟨fuel - 1, by omega⟩
    cases hs : server (pageParams 1 dfrom dto) with
    | ok r =>
      obtain ⟨hpp, htot⟩ := hfix _ _ hs
      have hguard : r.total.getD 0 ≤ ((1 : Nat) : Int) * r.per_page.getD 50 := by
        rw [htot, hpp, ht0]
        simp
        linarith
      refine ⟨extractObjs r, ?_⟩
      show fetchAux server dfrom dto (f + 1) 1 [] 0 = some (extractObjs r, 1)
      simp only [fetchAux, hs]
      rw [if_pos hguard]
      simp
    | httpError code =>
      exact ⟨[], by simp [fetch_photos_for_date_range, fetchAux, hs]⟩
    | otherError =>
      exact ⟨[], by simp [fetch_photos_for_date_range, fetchAux, hs]⟩

/-- Server used to instantiate claim C7: every page reports `total = 0`,
`per_page = 50`. -/
def exampleServerC7 : PageParams → PageResult :=
  fun _ => PageResult.ok ⟨[], some 0, some 50⟩

/-- Instance of claim C7 at a concrete server with `total = 0`. -/
theorem fetch_pagination_terminates_witness :
    (∃ res, fetch_photos_for_date_range exampleServerC7 ⟨2024, 1, 1, 0, 0⟩
      ⟨2024, 1, 16, 0, 0⟩ ((0 : Int).toNat + 2) = some res) ∧
    ((0 : Int) = 0 → ∀ fuel, 1 ≤ fuel →
      ∃ l, fetch_photos_for_date_range exampleServerC7 ⟨2024, 1, 1, 0, 0⟩
        ⟨2024, 1, 16, 0, 0⟩ fuel = some (l, 1)) :=
  fetch_pagination_terminates exampleServerC7 ⟨2024, 1, 1, 0, 0⟩ ⟨2024, 1, 16, 0, 0⟩
    50 0 (by norm_num) (by norm_num)
    (fun ps r h => by
      injection h with h2
      subst h2
      exact ⟨rfl, rfl⟩)

/-! ## Claim C8: an HTTP error stops the window and keeps partial results -/

/-- Loop invariant for claim C8: from page `page` on, `d` more fully
populated pages precede the failing page `N`; the loop then returns the
accumulator extended by those pages, having issued `d + 1` further
requests. -/
theorem fetchAux_http_error_partial (server : PageParams → PageResult)
    (dfrom dto : PyDatetime) (N code : Nat)
    (herr : server (pageParams N dfrom dto) = PageResult.httpError code)
    (hok : ∀ k, 1 ≤ k → k < N → ∃ r, server (pageParams k dfrom dto) = PageResult.ok r ∧
      (k : Int) * r.per_page.getD 50 < r.total.getD 0) :
    ∀ (d fuel page : Nat) (acc : List PhotoObj) (cnt : Nat),
      1 ≤ page → page + d = N → d < fuel →
      fetchAux server dfrom dto fuel page acc cnt =
        some (acc ++ collectPages server dfrom dto (pageList page d), cnt + d + 1) := by
  intro d
  induction d with
  | zero =>
    intro fuel page acc cnt hpage hN hfuel
    obtain ⟨f, rfl⟩ : ∃ f, fuel = f + 1 := ⟨fuel - 1, by omega⟩
    have hpN : page = N := by omega
    subst hpN
    simp [fetchAux, herr, pageList, collectPages]
  | succ d ih =>
    intro fuel page acc cnt hpage hN hfuel
    obtain ⟨f, rfl⟩ : ∃ f, fuel = f + 1 := ⟨fuel - 1, by omega⟩
    obtain ⟨r, hr, hlt⟩ := hok page hpage (by omega)
    have hguard : ¬ (r.total.getD 0 ≤ (page : Int) * r.per_page.getD 50) := not_le.mpr hlt
    have step : fetchAux server dfrom dto (f + 1) page acc cnt =
        fetchAux server dfrom dto f (page + 1) (acc ++ extractObjs r) (cnt + 1) := by
      simp [fetchAux, hr, hguard]
    rw [step, ih f (page + 1) (acc ++ extractObjs r) (cnt + 1) (by omega) (by omega) (by omega)]
    rw [show pageList page (d + 1) = page :: pageList (page + 1) d from rfl]
    rw [show collectPages server dfrom dto (page :: pageList (page + 1) d) =
      pageObjs server dfrom dto page ++ collectPages server dfrom dto (pageList (page + 1) d)
      from rfl]
    rw [show pageObjs server dfrom dto page = extractObjs r from by simp [pageObjs, hr]]
    simp only [Option.some.injEq, Prod.mk.injEq, List.append_assoc]
    exact ⟨trivial, by omega⟩

/-- Claim C8: if pages `1..N-1` answer with more data pending and page `N`
fails with an HTTP error, the fetcher returns (rather than raising) exactly
the descriptors accumulated from pages `1..N-1`, after `N` requests. -/
theorem fetch_http_error_returns_partial (server : PageParams → PageResult)
    (dfrom dto : PyDatetime) (N code : Nat) (hN : 1 ≤ N)
    (hok : ∀ k, 1 ≤ k → k < N → ∃ r, server (pageParams k dfrom dto) = PageResult.ok r ∧
      (k : Int) * r.per_page.getD 50 < r.total.getD 0)
    (herr : server (pageParams N dfrom dto) = PageResult.httpError code) :
    ∀ fuel, N ≤ fuel →
      fetch_photos_for_date_range server dfrom dto fuel =
        some (collectPages server dfrom dto (pageList 1 (N - 1)), N) := by
  intro fuel hfuel
  have h := fetchAux_http_error_partial server dfrom dto N code herr hok
    (N - 1) fuel 1 [] 0 (by omega) (by omega) (by omega)
  show fetchAux server dfrom dto fuel 1 [] 0 =
    some (collectPages server dfrom dto (pageList 1 (N - 1)), N)
  rw [h]
  rw [show (0 : Nat) + (N - 1) + 1 = N from by omega]
  simp

/-- Server used to instantiate claim C8: page 1 succeeds and reports more
data pending, page 2 fails with HTTP 500. -/
def exampleServerC8 : PageParams → PageResult :=
  fun ps =>
    if ps.page = 1 then
      PageResult.ok ⟨[⟨some "https://x.com/main/a.jpg", none, none⟩], some 100, some 50⟩
    else PageResult.httpError 500

/-- Instance of claim C8 at `N = 2`. -/
theorem fetch_http_error_returns_partial_witness :
    fetch_photos_for_date_range exampleServerC8 ⟨2024, 1, 1, 0, 0⟩ ⟨2024, 1, 16, 0, 0⟩ 2 =
      some (collectPages exampleServerC8 ⟨2024, 1, 1, 0, 0⟩ ⟨2024, 1, 16, 0, 0⟩
        (pageList 1 (2 - 1)), 2) :=
  fetch_http_error_returns_partial exampleServerC8 ⟨2024, 1, 1, 0, 0⟩ ⟨2024, 1, 16, 0, 0⟩
    2 500 (by norm_num)
    (fun k hk1 hk2 => by
      have hk : k = 1 := by omega
      subst hk
      exact ⟨⟨[⟨some "https://x.com/main/a.jpg", none, none⟩], some 100, some 50⟩,
        rfl, by decide⟩)
    rfl 2 (le_refl 2)

/-! ## Download Dispatcher

Lines 25-87 of `downloader.py`.  The filesystem is an association list from
paths to contents; the byte fetch `client.get` plus `raise_for_status` is an
oracle returning either the body or an HTTP failure (any other exception
behaves identically through the same `except` arms); `piexif.insert` is an
oracle that either rewrites the file's bytes or fails (its failure is caught
on line 78 and the file is kept as downloaded).  `photos_processed` and the
number of issued byte requests are carried in the state.

`download_photos` fans the handlers out with `asyncio.gather` under
single-threaded cooperative scheduling; each handler's counter update is a
single atomic step between awaits and each descriptor contributes its
increments independently of the interleaving, so the dispatcher is embedded
as the left fold of the per-descriptor handler over the descriptor list. -/

structure DState where
  fs : List (String × String)
  processed : Nat
  netCalls : Nat
deriving DecidableEq, Repr

/-- Lines 33-87 of `downloader.py`: skip-on-exists (counter increment, no
request), or fetch, write, attempt the EXIF update (its failure is caught and
keeps the downloaded bytes), then increment the counter; a failed byte fetch
is caught by the outer `except` arms, which print and return without
touching the counter. -/
def download_single_photo (net : String → Except Nat String)
    (exifInsert : PhotoObj → String → Option String)
    (hashFn : String → Int) (save_dir : String) (photo : PhotoObj) (st : DState) : DState :=
  let file_path := filePath hashFn save_dir photo.main_url
  if (st.fs.lookup file_path).isSome then
    ⟨st.fs, st.processed + 1, st.netCalls⟩
  else
    match net photo.main_url with
    | Except.error _ => ⟨st.fs, st.processed, st.netCalls + 1⟩
    | Except.ok content =>
      match exifInsert photo content with
      | some content2 => ⟨(file_path, content2) :: st.fs, st.processed + 1, st.netCalls + 1⟩
      | none => ⟨(file_path, content) :: st.fs, st.processed + 1, st.netCalls + 1⟩

/-- Lines 25-31 of `downloader.py`: run every descriptor's handler to its
terminal state. -/
def download_photos (net : String → Except Nat String)
    (exifInsert : PhotoObj → String → Option String)
    (hashFn : String → Int) (save_dir : String)
    (photos : List PhotoObj) (st : DState) : DState :=
  photos.foldl (fun s ph => download_single_photo net exifInsert hashFn save_dir ph s) st

/-! ## Claim C9: skip-on-exists is a pure counter increment -/

/-- Claim C9: when the normalized target path already exists, the handler
issues no byte request, leaves the filesystem (hence the existing file's
contents) unchanged, and increments the processed counter exactly once. -/
theorem download_single_photo_skip_on_exists (net : String → Except Nat String)
    (exifInsert : PhotoObj → String → Option String) (hashFn : String → Int)
    (save_dir : String) (photo : PhotoObj) (st : DState)
    (h : (st.fs.lookup (filePath hashFn save_dir photo.main_url)).isSome = true) :
    download_single_photo net exifInsert hashFn save_dir photo st =
      ⟨st.fs, st.processed + 1, st.netCalls⟩ := by
  simp [download_single_photo, h]

/-- Instance of claim C9: the target directory already holds `a.jpg` for the
descriptor's URL; the state changes only by the counter. -/
theorem download_single_photo_skip_witness :
    download_single_photo (fun _ => Except.error 404) (fun _ _ => none) (fun _ => 0) "pics"
      ⟨"https://x.com/main/a.jpg?99", none, none⟩ ⟨[("pics/a.jpg", "bytes")], 5, 7⟩ =
      ⟨[("pics/a.jpg", "bytes")], 5 + 1, 7⟩ :=
  download_single_photo_skip_on_exists (fun _ => Except.error 404) (fun _ _ => none)
    (fun _ => 0) "pics" ⟨"https://x.com/main/a.jpg?99", none, none⟩
    ⟨[("pics/a.jpg", "bytes")], 5, 7⟩ (by decide)

/-! ## Claim C1: the processed counter versus failed downloads

Claim C1 states that `processed_count` reaches the length of the descriptor
list with every descriptor counted once — success, skip, or caught failure.
The code increments `photos_processed` only on the skip path (line 50) and
the success path (line 81); both `except` arms of a failed download (lines
84-87) print and return without incrementing, contradicting the claim (and
the script's own Gooey progress contract `progress_expr="current / total *
100"`, which expects the printed `Progress: processed/total` line to reach
`total/total`).  The claim is a correct reading of the intent and the code
drops the increment: a code bug, witnessed by the evaluation below. -/

/-- Evaluation of the dispatcher at the failing input for claim C1: a single
descriptor whose byte fetch fails with HTTP 503 leaves `processed` at `0`,
not at the descriptor-list length `1` the claim requires. -/
theorem download_failure_not_counted :
    (download_photos (fun _ => Except.error 503) (fun _ _ => none) (fun _ => 0) "pics"
      [⟨"https://x.com/main/b.jpg", none, none⟩] ⟨[], 0, 0⟩).processed ≠
      ([⟨"https://x.com/main/b.jpg", none, none⟩] : List PhotoObj).length := by
  decide
